import Mathlib

/-!
# Plant Keeper — verification of the session-authenticated, ownership-scoped
# data access layer

A shallow embedding of `src/server.js`: the SQLite tables become Lean lists,
each Express route handler becomes a pure function from a database value (and
the request's fields) to a new database value and a response.  JavaScript
peculiarities that the handlers rely on (`||` / `??` defaulting, `Number`
coercion with `NaN`, falsy strings, `Date` parsing) are modelled explicitly.
Timestamps are integers (epoch milliseconds): `new Date(s).toISOString()`
stores an ISO string whose `Date` ordering coincides with the ordering of the
underlying millisecond value, so comparing integers is a faithful abstraction
of the string comparisons `new Date(a) > new Date(b)` in the handlers.
-/

deriving instance DecidableEq for Except

namespace PlantKeeper

/-! ## JavaScript value model -/

/-- A JSON value as it arrives in a request body field: absent (`undefined`),
`null`, a number, a string, or a boolean.  (JSON cannot carry `NaN` or
`undefined`; `undef` stands for an absent field.) -/
inductive JsVal where
  | undef : JsVal
  | null : JsVal
  | num : Int → JsVal
  | str : String → JsVal
  | bool : Bool → JsVal
deriving DecidableEq, Repr

/-- The result of JavaScript `Number(...)` coercion: an integer or `NaN`.
(The handlers only ever store interval counts of days, so integer-valued
numbers suffice; the point of `nan` is that `Number` of a non-numeric string
is `NaN`, not an error.) -/
inductive JsNum where
  | int : Int → JsNum
  | nan : JsNum
deriving DecidableEq, Repr

/-- JavaScript truthiness of a request-body value (`undefined`, `null`, `0`,
`""` and `false` are falsy). -/
def jsTruthy : JsVal → Bool
  | .undef => false
  | .null => false
  | .num n => n != 0
  | .str s => s != ""
  | .bool b => b

/-- JavaScript `a || b`: `a` when truthy, otherwise `b`. -/
def jsOr (a b : JsVal) : JsVal := if jsTruthy a then a else b

/-- `Number(s)` on a string, restricted to optionally-signed integer
literals: the empty/whitespace string is `0`, a digit string is its value,
anything else is `NaN`.  Real JavaScript also accepts decimal, exponent and
hex forms (`Number("7.5") = 7.5`) which this integer-valued model maps to
`NaN`; no theorem below evaluates the model on such an input — the concrete
inputs used ("abc", "", "12") agree with JavaScript exactly. -/
def jsStringToNumber (s : String) : JsNum :=
  let chars := ((s.toList.dropWhile Char.isWhitespace).reverse.dropWhile
    Char.isWhitespace).reverse
  if chars = [] then .int 0
  else
    let signAndDigits : Int × List Char :=
      match chars with
      | '-' :: rest => (-1, rest)
      | '+' :: rest => (1, rest)
      | l => (1, l)
    let ds := signAndDigits.2
    if ds ≠ [] ∧ ds.all Char.isDigit then
      .int (signAndDigits.1 * (ds.foldl (fun acc c => acc * 10 + (c.toNat - 48)) 0 : Nat))
    else .nan

/-- JavaScript `Number(v)` on a request-body value. -/
def jsToNumber : JsVal → JsNum
  | .undef => .nan
  | .null => .int 0
  | .num n => .int n
  | .str s => jsStringToNumber s
  | .bool b => .int (if b then 1 else 0)

/-- JavaScript `a ?? b` (nullish coalescing): `b` when `a` is absent or
`null`, otherwise `a`. -/
def jsCoalesce (a b : JsVal) : JsVal :=
  match a with
  | .undef => b
  | .null => b
  | v => v

/-- SQLite binding of a JavaScript number: SQLite has no NaN value, so a
bound `NaN` is stored as `NULL` (`none`); every other number is stored as
itself. -/
def sqlBindNum : JsNum → Option Int
  | .int n => some n
  | .nan => none

/-- A stored interval column as it reads back into JavaScript: a `NULL`
column reads as `null`, an integer as a number. -/
def jsOfStored : Option Int → JsVal
  | none => .null
  | some n => .num n

/-! ## Data model (the SQLite tables) -/

/-- A row of the `users` table. -/
structure User where
  id : Nat
  email : String
  password_hash : String
deriving DecidableEq, Repr

/-- A row of the `sessions` table (`created_at` in epoch milliseconds). -/
structure Session where
  id : String
  user_id : Nat
  created_at : Int
deriving DecidableEq, Repr

/-- A row of the `plants` table.  `user_id = none` is the legacy "unowned"
state (`NULL` in SQL); the interval columns are `none` when `NULL` (the
stored form of a bound `NaN`); `last_watered` / `last_repotted` are the
cached derived fields (`NULL` when unset). -/
structure Plant where
  id : Nat
  name : String
  species : Option String
  location : Option String
  water_interval_days : Option Int
  repot_interval_days : Option Int
  notes : Option String
  last_watered : Option Int
  last_repotted : Option Int
  user_id : Option Nat
deriving DecidableEq, Repr

/-- A row of the `waterings` or `repottings` table.  `id` is the
auto-increment insertion sequence number, `«at»` the event timestamp. -/
structure CareEvent where
  id : Nat
  plant_id : Nat
  «at» : Int
  user_id : Option Nat
deriving DecidableEq, Repr

/-- The whole database. `nextPlantId` / `nextEventId` model the
auto-increment counters; lists are kept in insertion order. -/
structure DB where
  users : List User := []
  sessions : List Session := []
  plants : List Plant := []
  waterings : List CareEvent := []
  repottings : List CareEvent := []
  nextPlantId : Nat := 1
  nextEventId : Nat := 1
deriving DecidableEq, Repr

/-- Error taxonomy of the handlers (HTTP status classes). -/
inductive Err where
  | validation
  | unauthorized
  | notFound
  | conflict
  | internal
deriving DecidableEq, Repr

/-! ## Sessions (`createSession`, `getSession`) -/

/-- `const sessionTTLHours = 24 * 30` — only ever used for the cookie
`maxAge`. -/
def sessionTTLHours : Nat := 24 * 30

/-- The session TTL in milliseconds (`sessionTTLHours * 3600 * 1000`). -/
def sessionTTLms : Int := (sessionTTLHours : Int) * 3600 * 1000

/-- `createSession(userId)`: inserts a session row.  The random token and
the row's creation time are passed in explicitly. -/
def createSession (db : DB) (tok : String) (uid : Nat) (now : Int) : DB :=
  { db with sessions := db.sessions ++ [⟨tok, uid, now⟩] }

/-- The row returned by `getSession`'s `SELECT s.id, u.id AS user_id,
u.email`. -/
structure SessRow where
  id : String
  user_id : Nat
  email : String
deriving DecidableEq, Repr

/-- `getSession(req)`: reads the (signed) session cookie, looks the token up
in `sessions` joined with `users`.  The query filters on the token only —
the row's `created_at` is never consulted — and runs no write, which the
embedding makes explicit by returning the database unchanged. -/
def getSession (db : DB) (cookie : Option String) : DB × Option SessRow :=
  match cookie with
  | none => (db, none)
  | some sid =>
    if sid = "" then (db, none)
    else
      match db.sessions.find? (fun s => s.id == sid) with
      | none => (db, none)
      | some s =>
        match db.users.find? (fun u => u.id == s.user_id) with
        | none => (db, none)
        | some u => (db, some ⟨s.id, u.id, u.email⟩)

/-! ## Login (`POST /api/login`) -/

/-- Outcome of the login handler: the database afterwards, the response, and
how many `bcrypt.compare` invocations ran (the expensive, timing-visible
step). -/
structure LoginOut where
  db : DB
  resp : Except String Unit
  bcryptCalls : Nat
deriving Repr

/-- `POST /api/login`.  `bc` models `bcrypt.compare` (a function of the
plaintext and the stored hash); `tok`/`now` feed the session created on
success.  An unknown email returns 401 before any hash comparison; a known
email with a wrong password returns the same 401 after one comparison. -/
def login (db : DB) (bc : String → String → Bool) (tok : String) (now : Int)
    (email password : Option String) : LoginOut :=
  match db.users.find? (fun u => u.email == email.getD "") with
  | none => ⟨db, .error "invalid credentials", 0⟩
  | some u =>
    if bc (password.getD "") u.password_hash then
      ⟨createSession db tok u.id now, .ok (), 1⟩
    else ⟨db, .error "invalid credentials", 1⟩

/-! ## Date normalization (`normalizeDate`) -/

/-- Gregorian leap year. -/
def isLeap (y : Nat) : Bool := (y % 4 == 0 && y % 100 != 0) || y % 400 == 0

/-- Days in a month. -/
def daysInMonth (y m : Nat) : Nat :=
  if m = 2 then (if isLeap y then 29 else 28)
  else if m = 4 ∨ m = 6 ∨ m = 9 ∨ m = 11 then 30
  else 31

/-- The regex `^\d{4}-\d{2}-\d{2}$`. -/
def matchesYMD (s : String) : Bool :=
  match s.toList with
  | [a, b, c, d, h1, e, f, h2, g, h] =>
    a.isDigit && b.isDigit && c.isDigit && d.isDigit && h1 == '-' &&
    e.isDigit && f.isDigit && h2 == '-' && g.isDigit && h.isDigit
  | _ => false

/-- Digit run to a natural number. -/
def digitsToNat (l : List Char) : Nat :=
  l.foldl (fun acc c => acc * 10 + (c.toNat - 48)) 0

/-- Extract `(year, month, day)` from a string matching `matchesYMD`. -/
def ymdOf (s : String) : Nat × Nat × Nat :=
  match s.toList with
  | [a, b, c, d, _, e, f, _, g, h] =>
    (digitsToNat [a, b, c, d], digitsToNat [e, f], digitsToNat [g, h])
  | _ => (0, 0, 0)

/-- Whether `new Date("YYYY-MM-DDT00:00:00")` yields a valid date (the JS
engine rejects out-of-range months/days in this format with Invalid Date). -/
def validCalendar (y m d : Nat) : Bool :=
  1 ≤ m && m ≤ 12 && 1 ≤ d && d ≤ daysInMonth y m

/-- Days since the Unix epoch of a civil date (standard civil-from-days
inverse; exact for years 0–9999). -/
def daysFromCivil (y m d : Int) : Int :=
  let yAdj := y - (if m ≤ 2 then 1 else 0)
  let era := (if 0 ≤ yAdj then yAdj else yAdj - 399) / 400
  let yoe := yAdj - era * 400
  let mp := (m + 9) % 12
  let doy := (153 * mp + 2) / 5 + d - 1
  let doe := yoe * 365 + yoe / 4 - yoe / 100 + doy
  era * 146097 + doe - 719468

/-- `new Date(s + "T00:00:00").getTime()` for a valid calendar date: local
midnight, i.e. the UTC day start shifted by the process's fixed timezone
offset `tz` (in milliseconds). -/
def localMidnightMillis (tz y m d : Int) : Int :=
  daysFromCivil y m d * 86400000 + tz

/-- `normalizeDate(dateStr)`.  `jsParse` models the engine's parse of an
arbitrary (non-`YYYY-MM-DD`) date string — `none` standing for Invalid Date;
`tz` is the fixed local timezone offset; `now` the current wall clock.  The
`YYYY-MM-DD` branch calls `.toISOString()` on `new Date(s + "T00:00:00")`
without an Invalid Date guard, so an in-format but out-of-range date throws
a `RangeError`, modelled as `.error`; the fallback branch checks
`isNaN(d.getTime())` and degrades to `now`. -/
def normalizeDate (jsParse : String → Option Int) (tz now : Int)
    (dateStr : Option String) : Except String Int :=
  match dateStr with
  | none => .ok now
  | some s =>
    if s = "" then .ok now
    else if matchesYMD s then
      let y := (ymdOf s).1
      let m := (ymdOf s).2.1
      let d := (ymdOf s).2.2
      if validCalendar y m d then
        .ok (localMidnightMillis tz (y : Int) (m : Int) (d : Int))
      else .error "RangeError: Invalid time value"
    else
      match jsParse s with
      | some t => .ok t
      | none => .ok now

/-! ## Ownership guard and plant routes -/

/-- The shared guard query
`SELECT * FROM plants WHERE id = ? AND (user_id IS NULL OR user_id = ?)`. -/
def fetchOwned (db : DB) (pid uid : Nat) : Option Plant :=
  db.plants.find? (fun p =>
    p.id == pid && (p.user_id == none || p.user_id == some uid))

/-- Request body of `POST /api/plants`.  String-typed attributes are
`Option` (`none` = absent or `null`); the interval fields keep full JS
values because the handler runs them through `||` and `Number`. -/
structure CreateBody where
  name : Option String := none
  species : Option String := none
  location : Option String := none
  water_interval_days : JsVal := .undef
  repot_interval_days : JsVal := .undef
  notes : Option String := none
deriving DecidableEq, Repr

/-- `POST /api/plants`: reject when `!name`; otherwise insert with intervals
`Number(water_interval_days || 7)` and `Number(repot_interval_days || 365)`,
owner the authenticated user, and both derived fields unset. -/
def createPlant (db : DB) (uid : Nat) (b : CreateBody) : DB × Except Err Nat :=
  if b.name = none ∨ b.name = some "" then (db, .error .validation)
  else
    let p : Plant :=
      { id := db.nextPlantId
        name := b.name.getD ""
        species := b.species
        location := b.location
        water_interval_days := sqlBindNum (jsToNumber (jsOr b.water_interval_days (.num 7)))
        repot_interval_days := sqlBindNum (jsToNumber (jsOr b.repot_interval_days (.num 365)))
        notes := b.notes
        last_watered := none
        last_repotted := none
        user_id := some uid }
    ({ db with plants := db.plants ++ [p], nextPlantId := db.nextPlantId + 1 },
      .ok p.id)

/-- Request body of `PUT /api/plants/:id` (same shape as `CreateBody`). -/
structure UpdateBody where
  name : Option String := none
  species : Option String := none
  location : Option String := none
  water_interval_days : JsVal := .undef
  repot_interval_days : JsVal := .undef
  notes : Option String := none
deriving DecidableEq, Repr

/-- The interval column written by the UPDATE: `Number(v ?? prior)` where
`prior` is the column as read back from the store (a `NULL` column — the
stored form of a bound `NaN` — reads as `null`, and `Number(null) = 0`),
the result then bound through SQLite again. -/
def numUpdate (v : JsVal) (prior : Option Int) : Option Int :=
  sqlBindNum (jsToNumber (jsCoalesce v (jsOfStored prior)))

/-- `v ?? prior` for a string column. -/
def strUpdate (v prior : Option String) : Option String :=
  match v with
  | none => prior
  | some s => some s

/-- `PUT /api/plants/:id`: ownership-guarded; `UPDATE` sets exactly the six
attribute columns (each defaulted from the fetched row via `??`), leaving
`id`, `user_id`, `last_watered`, `last_repotted` untouched. -/
def updatePlant (db : DB) (uid pid : Nat) (b : UpdateBody) :
    DB × Except Err Unit :=
  match fetchOwned db pid uid with
  | none => (db, .error .notFound)
  | some p =>
    let newName := b.name.getD p.name
    let newSpecies := strUpdate b.species p.species
    let newLocation := strUpdate b.location p.location
    let newW := numUpdate b.water_interval_days p.water_interval_days
    let newR := numUpdate b.repot_interval_days p.repot_interval_days
    let newNotes := strUpdate b.notes p.notes
    ({ db with plants := db.plants.map (fun q =>
        if q.id == pid then
          { q with
            name := newName
            species := newSpecies
            location := newLocation
            water_interval_days := newW
            repot_interval_days := newR
            notes := newNotes }
        else q) },
      .ok ())

/-- `DELETE /api/plants/:id`: ownership-guarded; deletes the record's
waterings, then its repottings, then the record row. -/
def deletePlant (db : DB) (uid pid : Nat) : DB × Except Err Unit :=
  match fetchOwned db pid uid with
  | none => (db, .error .notFound)
  | some _ =>
    ({ db with
        waterings := db.waterings.filter (fun e => e.plant_id != pid)
        repottings := db.repottings.filter (fun e => e.plant_id != pid)
        plants := db.plants.filter (fun p => p.id != pid) },
      .ok ())

/-! ## Backdated care events (`POST /api/water/:id`, `POST /api/repot/:id`) -/

/-- `POST /api/water/:id` after date normalization: ownership-guarded;
inserts a watering row with the effective timestamp `t`, then sets
`last_watered` to `t` exactly when `!plant.last_watered || new Date(t) >
new Date(plant.last_watered)`. -/
def waterPlant (db : DB) (uid pid : Nat) (t : Int) : DB × Except Err Int :=
  match fetchOwned db pid uid with
  | none => (db, .error .notFound)
  | some plant =>
    let ev : CareEvent := ⟨db.nextEventId, pid, t, some uid⟩
    let newer : Bool :=
      match plant.last_watered with
      | none => true
      | some m => decide (m < t)
    let plants' :=
      if newer then
        db.plants.map (fun q =>
          if q.id == pid then { q with last_watered := some t } else q)
      else db.plants
    ({ db with
        waterings := db.waterings ++ [ev]
        plants := plants'
        nextEventId := db.nextEventId + 1 },
      .ok t)

/-- `POST /api/repot/:id` after date normalization (mirror of
`waterPlant` on the repotting table and `last_repotted`). -/
def repotPlant (db : DB) (uid pid : Nat) (t : Int) : DB × Except Err Int :=
  match fetchOwned db pid uid with
  | none => (db, .error .notFound)
  | some plant =>
    let ev : CareEvent := ⟨db.nextEventId, pid, t, some uid⟩
    let newer : Bool :=
      match plant.last_repotted with
      | none => true
      | some m => decide (m < t)
    let plants' :=
      if newer then
        db.plants.map (fun q =>
          if q.id == pid then { q with last_repotted := some t } else q)
      else db.plants
    ({ db with
        repottings := db.repottings ++ [ev]
        plants := plants'
        nextEventId := db.nextEventId + 1 },
      .ok t)

/-- The full `POST /api/water/:id` route including date handling: the guard
runs first, then `normalizeDate` — whose uncaught `RangeError` aborts the
handler (Express answers 500) before any insert. -/
def waterRoute (jsParse : String → Option Int) (tz now : Int) (db : DB)
    (uid pid : Nat) (date : Option String) : DB × Except Err Int :=
  match fetchOwned db pid uid with
  | none => (db, .error .notFound)
  | some _ =>
    match normalizeDate jsParse tz now date with
    | .error _ => (db, .error .internal)
    | .ok t => waterPlant db uid pid t

/-! ## History (`GET /api/history/:id`) -/

/-- A row of the history response: the kind tag and the timestamp. -/
structure HEntry where
  type : String
  «at» : Int
deriving DecidableEq, Repr

/-- `ORDER BY at DESC` on an event table. -/
def evDesc (a b : CareEvent) : Prop := b.«at» ≤ a.«at»

instance : DecidableRel evDesc := fun a b =>
  inferInstanceAs (Decidable (b.«at» ≤ a.«at»))

/-- The JS comparator `(a, b) => new Date(b.at) - new Date(a.at)` as the
ordering relation of a stable sort. -/
def hDesc (a b : HEntry) : Prop := b.«at» ≤ a.«at»

instance : DecidableRel hDesc := fun a b =>
  inferInstanceAs (Decidable (b.«at» ≤ a.«at»))

/-- The record's watering rows, in insertion order. -/
def wateringsOf (db : DB) (pid : Nat) : List CareEvent :=
  db.waterings.filter (fun e => e.plant_id == pid)

/-- The record's repotting rows, in insertion order. -/
def repottingsOf (db : DB) (pid : Nat) : List CareEvent :=
  db.repottings.filter (fun e => e.plant_id == pid)

/-- `GET /api/history/:id`: ownership-guarded; the waterings (sorted `at
DESC`, tagged `'watered'`) are concatenated before the repottings (likewise
tagged `'repotted'`), and the concatenation is sorted by `at` descending
with JavaScript's stable `Array.prototype.sort`.  Both sorts are modelled by
the stable `List.insertionSort`. -/
def getHistory (db : DB) (uid pid : Nat) : Except Err (List HEntry) :=
  match fetchOwned db pid uid with
  | none => .error .notFound
  | some _ =>
    let w := (List.insertionSort evDesc (wateringsOf db pid)).map
      (fun e => HEntry.mk "watered" e.«at»)
    let r := (List.insertionSort evDesc (repottingsOf db pid)).map
      (fun e => HEntry.mk "repotted" e.«at»)
    .ok (List.insertionSort hDesc (w ++ r))

/-- Modelled from the spec (§4.5 `history`): the ordering the spec claims —
all of the record's events merged in insertion sequence (by the global
insertion counter), then stably sorted by timestamp descending, so that
equal-timestamp events keep their insertion order across kinds. -/
def historySpecInsertion (db : DB) (pid : Nat) : List HEntry :=
  let tagged : List (Nat × HEntry) :=
    (wateringsOf db pid).map (fun e => (e.id, HEntry.mk "watered" e.«at»)) ++
    (repottingsOf db pid).map (fun e => (e.id, HEntry.mk "repotted" e.«at»))
  let inserted := List.insertionSort (fun a b : Nat × HEntry => a.1 ≤ b.1) tagged
  (List.insertionSort (fun a b : Nat × HEntry => b.2.«at» ≤ a.2.«at») inserted).map
    (fun x => x.2)

/-! ## Derived-field invariant -/

/-- `max(at)` over a list of event rows, `none` when there are none. -/
def maxAt (l : List CareEvent) : Option Int :=
  l.foldl (fun acc e =>
    some (match acc with
      | none => e.«at»
      | some m => max m e.«at»)) none

/-- The cached derived fields of every record equal the maximum event
timestamp of the corresponding kind (unset when there are no events). -/
def CacheInv (db : DB) : Prop :=
  ∀ p ∈ db.plants,
    p.last_watered = maxAt (wateringsOf db p.id) ∧
    p.last_repotted = maxAt (repottingsOf db p.id)

instance (db : DB) : Decidable (CacheInv db) :=
  inferInstanceAs (Decidable (∀ p ∈ db.plants,
    p.last_watered = maxAt (wateringsOf db p.id) ∧
    p.last_repotted = maxAt (repottingsOf db p.id)))

/-- Primary-key well-formedness: plant ids are distinct. -/
def PlantIdsNodup (db : DB) : Prop := (db.plants.map (fun p => p.id)).Nodup

instance (db : DB) : Decidable (PlantIdsNodup db) :=
  inferInstanceAs (Decidable (List.Nodup _))

/-- One append operation of either kind, as issued by some user against some
record with some effective timestamp. -/
inductive AppendOp where
  | water (uid pid : Nat) (t : Int)
  | repot (uid pid : Nat) (t : Int)
deriving DecidableEq, Repr

/-- Run one append operation, keeping the state on a rejected request. -/
def applyOp (db : DB) : AppendOp → DB
  | .water uid pid t => (waterPlant db uid pid t).1
  | .repot uid pid t => (repotPlant db uid pid t).1

/-- Run a sequence of append operations. -/
def applyOps (db : DB) (ops : List AppendOp) : DB := ops.foldl applyOp db

/-! ## Helper lemmas -/

theorem maxAt_append (l : List CareEvent) (e : CareEvent) :
    maxAt (l ++ [e]) = some (match maxAt l with
      | none => e.«at»
      | some m => max m e.«at») := by
  simp [maxAt, List.foldl_append]

theorem fetchOwned_mem {db : DB} {pid uid : Nat} {p : Plant}
    (h : fetchOwned db pid uid = some p) : p ∈ db.plants :=
  List.mem_of_find?_eq_some h

theorem fetchOwned_id {db : DB} {pid uid : Nat} {p : Plant}
    (h : fetchOwned db pid uid = some p) : p.id = pid := by
  have hp := List.find?_some h
  simp only [Bool.and_eq_true, beq_iff_eq] at hp
  exact hp.1

theorem eq_of_mem_of_same_id {db : DB} (hnd : PlantIdsNodup db) {p q : Plant}
    (hp : p ∈ db.plants) (hq : q ∈ db.plants) (hid : p.id = q.id) : p = q :=
  List.inj_on_of_nodup_map hnd hp hq hid

theorem filter_snoc_eq (l : List CareEvent) (ev : CareEvent) (x : Nat)
    (h : ev.plant_id = x) :
    (l ++ [ev]).filter (fun e => e.plant_id == x) =
      l.filter (fun e => e.plant_id == x) ++ [ev] := by
  simp [List.filter_append, h]

theorem filter_snoc_ne (l : List CareEvent) (ev : CareEvent) (x : Nat)
    (h : ev.plant_id ≠ x) :
    (l ++ [ev]).filter (fun e => e.plant_id == x) =
      l.filter (fun e => e.plant_id == x) := by
  simp [List.filter_append, h]

theorem maxAt_snoc_none {l : List CareEvent} {e : CareEvent}
    (h : maxAt l = none) : maxAt (l ++ [e]) = some e.«at» := by
  rw [maxAt_append, h]

theorem maxAt_snoc_le {l : List CareEvent} {e : CareEvent} {m : Int}
    (h : maxAt l = some m) (hle : e.«at» ≤ m) :
    maxAt (l ++ [e]) = some m := by
  rw [maxAt_append, h]
  simp [max_eq_left hle]

theorem maxAt_snoc_gt {l : List CareEvent} {e : CareEvent} {m : Int}
    (h : maxAt l = some m) (hgt : m < e.«at») :
    maxAt (l ++ [e]) = some e.«at» := by
  rw [maxAt_append, h]
  simp [max_eq_right (le_of_lt hgt)]

theorem waterPlant_preserves (db : DB) (uid pid : Nat) (t : Int)
    (hnd : PlantIdsNodup db) (hinv : CacheInv db) :
    CacheInv (waterPlant db uid pid t).1 ∧
      PlantIdsNodup (waterPlant db uid pid t).1 := by
  cases hf : fetchOwned db pid uid with
  | none =>
    simp only [waterPlant, hf]
    exact ⟨hinv, hnd⟩
  | some plant =>
    have hmem := fetchOwned_mem hf
    have hpid := fetchOwned_id hf
    subst hpid
    simp only [waterPlant, hf]
    by_cases hnew : (match plant.last_watered with
        | none => true
        | some m => decide (m < t)) = true
    · rw [if_pos hnew]
      constructor
      · intro q' hq'
        rcases List.mem_map.1 hq' with ⟨q, hq, rfl⟩
        have hqinv := hinv q hq
        simp only [wateringsOf, repottingsOf] at hqinv ⊢
        by_cases hqp : q.id = plant.id
        · have hq_plant : q = plant := eq_of_mem_of_same_id hnd hq hmem hqp
          subst hq_plant
          simp only [beq_self_eq_true, if_true]
          refine ⟨?_, by simpa using hqinv.2⟩
          rw [filter_snoc_eq db.waterings ⟨db.nextEventId, q.id, t, some uid⟩ q.id rfl]
          cases hlw : q.last_watered with
          | none =>
            rw [hlw] at hqinv
            exact (maxAt_snoc_none (e := ⟨db.nextEventId, q.id, t, some uid⟩)
              hqinv.1.symm).symm
          | some m =>
            rw [hlw] at hqinv hnew
            simp only [decide_eq_true_eq] at hnew
            exact (maxAt_snoc_gt (e := ⟨db.nextEventId, q.id, t, some uid⟩)
              hqinv.1.symm hnew).symm
        · simp only [beq_iff_eq, hqp, if_false]
          rw [filter_snoc_ne db.waterings ⟨db.nextEventId, plant.id, t, some uid⟩ q.id
            (fun h => hqp h.symm)]
          exact hqinv
      · simp only [PlantIdsNodup, List.map_map]
        have heq : ((fun p : Plant => p.id) ∘ fun q : Plant =>
            if q.id == plant.id then { q with last_watered := some t } else q) =
            fun p : Plant => p.id := by
          funext q
          by_cases hqp : q.id = plant.id <;> simp [hqp]
        rw [heq]
        exact hnd
    · rw [if_neg hnew]
      refine ⟨?_, hnd⟩
      intro q hq
      have hqinv := hinv q hq
      simp only [wateringsOf, repottingsOf] at hqinv ⊢
      by_cases hqp : q.id = plant.id
      · have hq_plant : q = plant := eq_of_mem_of_same_id hnd hq hmem hqp
        subst hq_plant
        cases hlw : q.last_watered with
        | none =>
          rw [hlw] at hnew
          simp at hnew
        | some m =>
          rw [hlw] at hnew
          simp only [decide_eq_true_eq] at hnew
          push_neg at hnew
          refine ⟨?_, by simpa using hqinv.2⟩
          have h1 : maxAt (db.waterings.filter (fun e => e.plant_id == q.id)) = some m := by
            rw [← hqinv.1, hlw]
          rw [filter_snoc_eq db.waterings ⟨db.nextEventId, q.id, t, some uid⟩ q.id rfl,
            maxAt_snoc_le h1 hnew]
      · rw [filter_snoc_ne db.waterings ⟨db.nextEventId, plant.id, t, some uid⟩ q.id
          (fun h => hqp h.symm)]
        exact hqinv

theorem repotPlant_preserves (db : DB) (uid pid : Nat) (t : Int)
    (hnd : PlantIdsNodup db) (hinv : CacheInv db) :
    CacheInv (repotPlant db uid pid t).1 ∧
      PlantIdsNodup (repotPlant db uid pid t).1 := by
  cases hf : fetchOwned db pid uid with
  | none =>
    simp only [repotPlant, hf]
    exact ⟨hinv, hnd⟩
  | some plant =>
    have hmem := fetchOwned_mem hf
    have hpid := fetchOwned_id hf
    subst hpid
    simp only [repotPlant, hf]
    by_cases hnew : (match plant.last_repotted with
        | none => true
        | some m => decide (m < t)) = true
    · rw [if_pos hnew]
      constructor
      · intro q' hq'
        rcases List.mem_map.1 hq' with ⟨q, hq, rfl⟩
        have hqinv := hinv q hq
        simp only [wateringsOf, repottingsOf] at hqinv ⊢
        by_cases hqp : q.id = plant.id
        · have hq_plant : q = plant := eq_of_mem_of_same_id hnd hq hmem hqp
          subst hq_plant
          simp only [beq_self_eq_true, if_true]
          refine ⟨by simpa using hqinv.1, ?_⟩
          rw [filter_snoc_eq db.repottings ⟨db.nextEventId, q.id, t, some uid⟩ q.id rfl]
          cases hlw : q.last_repotted with
          | none =>
            rw [hlw] at hqinv
            exact (maxAt_snoc_none (e := ⟨db.nextEventId, q.id, t, some uid⟩)
              hqinv.2.symm).symm
          | some m =>
            rw [hlw] at hqinv hnew
            simp only [decide_eq_true_eq] at hnew
            exact (maxAt_snoc_gt (e := ⟨db.nextEventId, q.id, t, some uid⟩)
              hqinv.2.symm hnew).symm
        · simp only [beq_iff_eq, hqp, if_false]
          rw [filter_snoc_ne db.repottings ⟨db.nextEventId, plant.id, t, some uid⟩ q.id
            (fun h => hqp h.symm)]
          exact hqinv
      · simp only [PlantIdsNodup, List.map_map]
        have heq : ((fun p : Plant => p.id) ∘ fun q : Plant =>
            if q.id == plant.id then { q with last_repotted := some t } else q) =
            fun p : Plant => p.id := by
          funext q
          by_cases hqp : q.id = plant.id <;> simp [hqp]
        rw [heq]
        exact hnd
    · rw [if_neg hnew]
      refine ⟨?_, hnd⟩
      intro q hq
      have hqinv := hinv q hq
      simp only [wateringsOf, repottingsOf] at hqinv ⊢
      by_cases hqp : q.id = plant.id
      · have hq_plant : q = plant := eq_of_mem_of_same_id hnd hq hmem hqp
        subst hq_plant
        cases hlw : q.last_repotted with
        | none =>
          rw [hlw] at hnew
          simp at hnew
        | some m =>
          rw [hlw] at hnew
          simp only [decide_eq_true_eq] at hnew
          push_neg at hnew
          refine ⟨by simpa using hqinv.1, ?_⟩
          have h1 : maxAt (db.repottings.filter (fun e => e.plant_id == q.id)) = some m := by
            rw [← hqinv.2, hlw]
          rw [filter_snoc_eq db.repottings ⟨db.nextEventId, q.id, t, some uid⟩ q.id rfl,
            maxAt_snoc_le h1 hnew]
      · rw [filter_snoc_ne db.repottings ⟨db.nextEventId, plant.id, t, some uid⟩ q.id
          (fun h => hqp h.symm)]
        exact hqinv

theorem applyOp_preserves (db : DB) (op : AppendOp)
    (hnd : PlantIdsNodup db) (hinv : CacheInv db) :
    CacheInv (applyOp db op) ∧ PlantIdsNodup (applyOp db op) := by
  cases op with
  | water uid pid t => exact waterPlant_preserves db uid pid t hnd hinv
  | repot uid pid t => exact repotPlant_preserves db uid pid t hnd hinv

theorem applyOps_preserves (db : DB) (ops : List AppendOp)
    (hnd : PlantIdsNodup db) (hinv : CacheInv db) :
    CacheInv (applyOps db ops) ∧ PlantIdsNodup (applyOps db ops) := by
  induction ops generalizing db with
  | nil => exact ⟨hinv, hnd⟩
  | cons op ops ih =>
    have h := applyOp_preserves db op hnd hinv
    simpa [applyOps, List.foldl_cons] using ih (applyOp db op) h.2 h.1

theorem waterPlant_step (db : DB) (uid pid : Nat) (t : Int) (plant : Plant)
    (hnd : PlantIdsNodup db) (hf : fetchOwned db pid uid = some plant) :
    ∀ q ∈ (waterPlant db uid pid t).1.plants, q.id = pid →
      q.last_watered = (match plant.last_watered with
        | none => some t
        | some m => if m < t then some t else some m) := by
  have hmem := fetchOwned_mem hf
  have hpid := fetchOwned_id hf
  subst hpid
  intro q hq hqid
  simp only [waterPlant, hf] at hq
  by_cases hnew : (match plant.last_watered with
      | none => true
      | some m => decide (m < t)) = true
  · rw [if_pos hnew] at hq
    rcases List.mem_map.1 hq with ⟨q0, hq0, rfl⟩
    by_cases hq0p : q0.id = plant.id
    · simp only [hq0p, beq_self_eq_true, if_true]
      cases hlw : plant.last_watered with
      | none => rfl
      | some m =>
        rw [hlw] at hnew
        simp only [decide_eq_true_eq] at hnew
        show some t = if m < t then some t else some m
        rw [if_pos hnew]
    · exfalso
      simp [hq0p] at hqid
  · rw [if_neg hnew] at hq
    have hq_plant : q = plant := eq_of_mem_of_same_id hnd hq hmem hqid
    subst hq_plant
    cases hlw : q.last_watered with
    | none =>
      rw [hlw] at hnew
      simp at hnew
    | some m =>
      rw [hlw] at hnew
      simp only [decide_eq_true_eq] at hnew
      show some m = if m < t then some t else some m
      rw [if_neg hnew]

theorem repotPlant_step (db : DB) (uid pid : Nat) (t : Int) (plant : Plant)
    (hnd : PlantIdsNodup db) (hf : fetchOwned db pid uid = some plant) :
    ∀ q ∈ (repotPlant db uid pid t).1.plants, q.id = pid →
      q.last_repotted = (match plant.last_repotted with
        | none => some t
        | some m => if m < t then some t else some m) := by
  have hmem := fetchOwned_mem hf
  have hpid := fetchOwned_id hf
  subst hpid
  intro q hq hqid
  simp only [repotPlant, hf] at hq
  by_cases hnew : (match plant.last_repotted with
      | none => true
      | some m => decide (m < t)) = true
  · rw [if_pos hnew] at hq
    rcases List.mem_map.1 hq with ⟨q0, hq0, rfl⟩
    by_cases hq0p : q0.id = plant.id
    · simp only [hq0p, beq_self_eq_true, if_true]
      cases hlw : plant.last_repotted with
      | none => rfl
      | some m =>
        rw [hlw] at hnew
        simp only [decide_eq_true_eq] at hnew
        show some t = if m < t then some t else some m
        rw [if_pos hnew]
    · exfalso
      simp [hq0p] at hqid
  · rw [if_neg hnew] at hq
    have hq_plant : q = plant := eq_of_mem_of_same_id hnd hq hmem hqid
    subst hq_plant
    cases hlw : q.last_repotted with
    | none =>
      rw [hlw] at hnew
      simp at hnew
    | some m =>
      rw [hlw] at hnew
      simp only [decide_eq_true_eq] at hnew
      show some m = if m < t then some t else some m
      rw [if_neg hnew]

/-! ## Claim C1 -/

/-- Concrete one-plant database for exercising the append operations. -/
def cdbC1 : DB :=
  { plants := [⟨1, "Fern", none, none, some 7, some 365, none, none, none, some 1⟩] }

/-- A backdating append sequence: water at 10, backdated water at 5, water at
20, repot at 3. -/
def copsC1 : List AppendOp := [.water 1 1 10, .water 1 1 5, .water 1 1 20, .repot 1 1 3]

/-- C1: after any sequence of appends (in any timestamp order, including
backdated inserts) the cached `last_watered` of every record equals the
maximum `at` over its watering events (unset if none), and symmetrically
`last_repotted` over its repotting events; equivalently, a single append
leaves the cached field unchanged when its effective timestamp is less than
or equal to the cached value, and sets it to exactly that timestamp when it
is strictly greater or the cached field is unset. -/
theorem lastEvent_cache_correct :
    (∀ (db : DB) (ops : List AppendOp), PlantIdsNodup db → CacheInv db →
      CacheInv (applyOps db ops)) ∧
    (∀ (db : DB) (uid pid : Nat) (t : Int) (plant : Plant),
      PlantIdsNodup db → fetchOwned db pid uid = some plant →
      ∀ q ∈ (waterPlant db uid pid t).1.plants, q.id = pid →
        q.last_watered = (match plant.last_watered with
          | none => some t
          | some m => if m < t then some t else some m)) ∧
    (∀ (db : DB) (uid pid : Nat) (t : Int) (plant : Plant),
      PlantIdsNodup db → fetchOwned db pid uid = some plant →
      ∀ q ∈ (repotPlant db uid pid t).1.plants, q.id = pid →
        q.last_repotted = (match plant.last_repotted with
          | none => some t
          | some m => if m < t then some t else some m)) :=
  ⟨fun db ops hnd hinv => (applyOps_preserves db ops hnd hinv).1,
   fun db uid pid t plant hnd hf => waterPlant_step db uid pid t plant hnd hf,
   fun db uid pid t plant hnd hf => repotPlant_step db uid pid t plant hnd hf⟩

/-- Witness for C1 at a concrete database and a concrete backdating append
sequence. -/
theorem lastEvent_cache_correct_witness :
    CacheInv (applyOps cdbC1 copsC1) ∧
    (∀ q ∈ (waterPlant (applyOps cdbC1 copsC1) 1 1 15).1.plants, q.id = 1 →
      q.last_watered = some 20) := by
  constructor
  · exact lastEvent_cache_correct.1 cdbC1 copsC1 (by decide) (by decide)
  · intro q hq hid
    have h := lastEvent_cache_correct.2.1 (applyOps cdbC1 copsC1) 1 1 15
      ⟨1, "Fern", none, none, some 7, some 365, none, some 20, some 3, some 1⟩
      (by decide) (by decide) q hq hid
    simpa using h

/-! ## Claim C2 -/

/-- Concrete database whose only plant is owned by user 2. -/
def cdbC2 : DB :=
  { plants := [⟨1, "Fern", none, none, some 7, some 365, none, none, none, some 2⟩] }

/-- C2: when every plant carrying the requested id is owned by a user other
than the requester, the single-record fetch fails, and update, delete, both
event appends and history all answer `notFound` (never `forbidden`, which
does not even exist in the error taxonomy) while leaving the database
exactly unchanged. -/
theorem crossOwner_notFound_no_change (db : DB) (uid v pid : Nat)
    (ub : UpdateBody) (t : Int)
    (hown : ∀ q ∈ db.plants, q.id = pid → q.user_id = some v) (hv : v ≠ uid) :
    fetchOwned db pid uid = none ∧
    updatePlant db uid pid ub = (db, .error .notFound) ∧
    deletePlant db uid pid = (db, .error .notFound) ∧
    waterPlant db uid pid t = (db, .error .notFound) ∧
    repotPlant db uid pid t = (db, .error .notFound) ∧
    getHistory db uid pid = .error .notFound := by
  have hfo : fetchOwned db pid uid = none := by
    apply List.find?_eq_none.2
    intro x hx hpred
    simp only [Bool.and_eq_true, Bool.or_eq_true, beq_iff_eq] at hpred
    obtain ⟨hid, hcase⟩ := hpred
    have hxv := hown x hx hid
    rcases hcase with h1 | h2
    · rw [hxv] at h1
      simp at h1
    · rw [hxv] at h2
      exact hv (Option.some_injective _ h2)
  refine ⟨hfo, ?_, ?_, ?_, ?_, ?_⟩ <;>
    simp [updatePlant, deletePlant, waterPlant, repotPlant, getHistory, hfo]

/-- Witness for C2: user 1 attacking user 2's record. -/
theorem crossOwner_notFound_no_change_witness :
    fetchOwned cdbC2 1 1 = none ∧
    updatePlant cdbC2 1 1 {} = (cdbC2, .error .notFound) ∧
    deletePlant cdbC2 1 1 = (cdbC2, .error .notFound) ∧
    waterPlant cdbC2 1 1 0 = (cdbC2, .error .notFound) ∧
    repotPlant cdbC2 1 1 0 = (cdbC2, .error .notFound) ∧
    getHistory cdbC2 1 1 = .error .notFound :=
  crossOwner_notFound_no_change cdbC2 1 2 1 {} 0 (by decide) (by decide)

/-! ## Claim C7 -/

/-- Concrete database for the update-frame witness. -/
def cdbC7 : DB :=
  { plants := [⟨1, "Fern", some "fern", some "desk", some 7, some 365,
      some "note", some 10, some 3, some 1⟩] }

/-- C7 counterexample: a record created with the non-numeric interval
`"abc"` stores `NULL` (the SQLite form of the bound `NaN`); a subsequent
update that supplies no interval at all computes
`Number(undefined ?? null) = 0` and overwrites the stored `NULL` with `0`,
so an attribute not supplied in the partial input does not always retain
its prior stored value. -/
theorem update_overwrites_null_interval_cex :
    (createPlant {} 1 { name := some "Fern", water_interval_days := .str "abc" }).1.plants.map
      (fun p => p.water_interval_days) = [none] ∧
    (updatePlant
        (createPlant {} 1 { name := some "Fern", water_interval_days := .str "abc" }).1
        1 1 {}).2 = .ok () ∧
    (updatePlant
        (createPlant {} 1 { name := some "Fern", water_interval_days := .str "abc" }).1
        1 1 {}).1.plants.map (fun p => p.water_interval_days) = [some 0] ∧
    ([some 0] ≠ ([none] : List (Option Int))) :=
  ⟨by decide, by decide, by decide, by decide⟩

/-- C7 (amended): a successful partial update answers ok, touches no table
other than `plants`, keeps every record with a different id, and on the
target record never changes ownership or the two cached derived timestamps;
every string attribute left unspecified (absent/`null`) retains its prior
stored value, and an unspecified interval attribute retains its prior value
exactly when that value is non-`NULL` — a `NULL` interval (the stored form
of a non-numeric create input) is rewritten to `0`, because the handler
recomputes `Number(undefined ?? null) = 0`. -/
theorem update_frame (db : DB) (uid pid : Nat) (b : UpdateBody) (p : Plant)
    (hnd : PlantIdsNodup db) (hf : fetchOwned db pid uid = some p) :
    (updatePlant db uid pid b).2 = .ok () ∧
    (updatePlant db uid pid b).1.waterings = db.waterings ∧
    (updatePlant db uid pid b).1.repottings = db.repottings ∧
    (updatePlant db uid pid b).1.users = db.users ∧
    (updatePlant db uid pid b).1.sessions = db.sessions ∧
    (∀ q ∈ db.plants, q.id ≠ pid → q ∈ (updatePlant db uid pid b).1.plants) ∧
    (∀ q ∈ (updatePlant db uid pid b).1.plants, q.id = pid →
      q.user_id = p.user_id ∧ q.last_watered = p.last_watered ∧
      q.last_repotted = p.last_repotted ∧
      (b.name = none → q.name = p.name) ∧
      (b.species = none → q.species = p.species) ∧
      (b.location = none → q.location = p.location) ∧
      (b.notes = none → q.notes = p.notes) ∧
      ((b.water_interval_days = .undef ∨ b.water_interval_days = .null) →
        q.water_interval_days = (match p.water_interval_days with
          | some n => some n
          | none => some 0)) ∧
      ((b.repot_interval_days = .undef ∨ b.repot_interval_days = .null) →
        q.repot_interval_days = (match p.repot_interval_days with
          | some n => some n
          | none => some 0))) := by
  have hmem := fetchOwned_mem hf
  have hpid := fetchOwned_id hf
  subst hpid
  refine ⟨by simp [updatePlant, hf], by simp [updatePlant, hf],
    by simp [updatePlant, hf], by simp [updatePlant, hf],
    by simp [updatePlant, hf], ?_, ?_⟩
  · intro q hq hqid
    simp only [updatePlant, hf]
    refine List.mem_map.2 ⟨q, hq, ?_⟩
    simp [hqid]
  · intro q hq hqid
    simp only [updatePlant, hf] at hq
    rcases List.mem_map.1 hq with ⟨q0, hq0, rfl⟩
    by_cases hq0p : q0.id = p.id
    · have hq0_p : q0 = p := eq_of_mem_of_same_id hnd hq0 hmem hq0p
      subst hq0_p
      simp only [beq_self_eq_true, if_true]
      refine ⟨by simp, by simp, by simp, ?_, ?_, ?_, ?_, ?_, ?_⟩
      · intro hb
        simp [hb]
      · intro hb
        simp [strUpdate, hb]
      · intro hb
        simp [strUpdate, hb]
      · intro hb
        simp [strUpdate, hb]
      · rintro (hb | hb) <;> cases hp : q0.water_interval_days <;>
          simp [numUpdate, jsCoalesce, jsOfStored, jsToNumber, sqlBindNum, hb, hp]
      · rintro (hb | hb) <;> cases hp : q0.repot_interval_days <;>
          simp [numUpdate, jsCoalesce, jsOfStored, jsToNumber, sqlBindNum, hb, hp]
    · exfalso
      simp [hq0p] at hqid

/-- Witness for the amended C7: updating only the name leaves everything
else as it was (intervals retained because their stored values are
non-`NULL`). -/
theorem update_frame_witness :
    (updatePlant cdbC7 1 1 { name := some "Big Fern" }).2 = .ok () ∧
    (updatePlant cdbC7 1 1 { name := some "Big Fern" }).1.waterings = cdbC7.waterings ∧
    (updatePlant cdbC7 1 1 { name := some "Big Fern" }).1.repottings = cdbC7.repottings ∧
    (updatePlant cdbC7 1 1 { name := some "Big Fern" }).1.users = cdbC7.users ∧
    (updatePlant cdbC7 1 1 { name := some "Big Fern" }).1.sessions = cdbC7.sessions ∧
    (∀ q ∈ cdbC7.plants, q.id ≠ 1 →
      q ∈ (updatePlant cdbC7 1 1 { name := some "Big Fern" }).1.plants) ∧
    (∀ q ∈ (updatePlant cdbC7 1 1 { name := some "Big Fern" }).1.plants, q.id = 1 →
      q.user_id = some 1 ∧ q.last_watered = some 10 ∧ q.last_repotted = some 3 ∧
      q.species = some "fern" ∧ q.water_interval_days = some 7) := by
  have h := update_frame cdbC7 1 1 { name := some "Big Fern" }
    ⟨1, "Fern", some "fern", some "desk", some 7, some 365,
      some "note", some 10, some 3, some 1⟩ (by decide) (by decide)
  refine ⟨h.1, h.2.1, h.2.2.1, h.2.2.2.1, h.2.2.2.2.1, h.2.2.2.2.2.1, ?_⟩
  intro q hq hqid
  have h7 := h.2.2.2.2.2.2 q hq hqid
  exact ⟨h7.1, h7.2.1, h7.2.2.1, h7.2.2.2.2.1 rfl, h7.2.2.2.2.2.2.2.1 (Or.inl rfl)⟩

/-! ## Claim C8 -/

theorem filter_erase_self (l : List CareEvent) (x : Nat) :
    (l.filter (fun e => e.plant_id != x)).filter (fun e => e.plant_id == x) = [] := by
  induction l with
  | nil => rfl
  | cons e l ih =>
    simp only [List.filter_cons]
    by_cases h : e.plant_id = x
    · have h1 : (e.plant_id != x) = false := by simp [h]
      simp only [h1, Bool.false_eq_true, if_false]
      exact ih
    · have h1 : (e.plant_id != x) = true := by simp [h]
      have h2 : (e.plant_id == x) = false := by simp [h]
      simp only [h1, if_true, List.filter_cons, h2, Bool.false_eq_true, if_false]
      exact ih

theorem filter_erase_other (l : List CareEvent) (x y : Nat) (hxy : y ≠ x) :
    (l.filter (fun e => e.plant_id != x)).filter (fun e => e.plant_id == y) =
      l.filter (fun e => e.plant_id == y) := by
  induction l with
  | nil => rfl
  | cons e l ih =>
    simp only [List.filter_cons]
    by_cases h : e.plant_id = x
    · have h1 : (e.plant_id != x) = false := by simp [h]
      have h2 : (e.plant_id == y) = false := by
        refine beq_eq_false_iff_ne.2 (fun hh => hxy (hh.symm.trans h))
      simp only [h1, h2, Bool.false_eq_true, if_false]
      exact ih
    · have h1 : (e.plant_id != x) = true := by simp [h]
      simp only [h1, if_true, List.filter_cons]
      by_cases h2 : e.plant_id = y
      · have h2t : (e.plant_id == y) = true := by simp [h2]
        simp only [h2t, if_true, ih]
      · have h2f : (e.plant_id == y) = false := by simp [h2]
        simp only [h2f, Bool.false_eq_true, if_false, ih]

/-- Concrete database for the delete-cascade witness: two plants with
events each. -/
def cdbC8 : DB :=
  { plants := [⟨1, "Fern", none, none, some 7, some 365, none, some 10, none, some 1⟩,
      ⟨2, "Ivy", none, none, some 7, some 365, none, some 4, none, some 1⟩]
    waterings := [⟨1, 1, 10, some 1⟩, ⟨2, 2, 4, some 1⟩, ⟨3, 1, 5, some 1⟩]
    repottings := [⟨4, 1, 2, some 1⟩]
    nextPlantId := 3
    nextEventId := 5 }

/-- C8: a successful delete of an accessible record answers ok, removes all
of that record's watering and repotting events together with the record,
leaves the events of every other record exactly as they were, and any
subsequent fetch or history request for that id answers `notFound` for
every user. -/
theorem delete_cascade (db : DB) (uid pid : Nat) (p : Plant)
    (hf : fetchOwned db pid uid = some p) :
    (deletePlant db uid pid).2 = .ok () ∧
    wateringsOf (deletePlant db uid pid).1 pid = [] ∧
    repottingsOf (deletePlant db uid pid).1 pid = [] ∧
    (∀ x : Nat, x ≠ pid →
      wateringsOf (deletePlant db uid pid).1 x = wateringsOf db x ∧
      repottingsOf (deletePlant db uid pid).1 x = repottingsOf db x) ∧
    (∀ uid2 : Nat, fetchOwned (deletePlant db uid pid).1 pid uid2 = none ∧
      getHistory (deletePlant db uid pid).1 uid2 pid = .error .notFound) := by
  have hnone : ∀ uid2 : Nat, fetchOwned (deletePlant db uid pid).1 pid uid2 = none := by
    intro uid2
    simp only [deletePlant, hf]
    apply List.find?_eq_none.2
    intro x hx hpred
    have hxmem := List.mem_filter.1 hx
    simp only [Bool.and_eq_true, beq_iff_eq] at hpred
    have : (x.id != pid) = true := hxmem.2
    simp only [bne_iff_ne, ne_eq] at this
    exact this hpred.1
  refine ⟨by simp [deletePlant, hf], ?_, ?_, ?_, ?_⟩
  · simp only [deletePlant, hf, wateringsOf]
    exact filter_erase_self db.waterings pid
  · simp only [deletePlant, hf, repottingsOf]
    exact filter_erase_self db.repottings pid
  · intro x hx
    constructor
    · simp only [deletePlant, hf, wateringsOf]
      exact filter_erase_other db.waterings pid x hx
    · simp only [deletePlant, hf, repottingsOf]
      exact filter_erase_other db.repottings pid x hx
  · intro uid2
    refine ⟨hnone uid2, ?_⟩
    simp [getHistory, hnone uid2]

/-- Witness for C8 on a concrete two-plant database. -/
theorem delete_cascade_witness :
    (deletePlant cdbC8 1 1).2 = .ok () ∧
    wateringsOf (deletePlant cdbC8 1 1).1 1 = [] ∧
    repottingsOf (deletePlant cdbC8 1 1).1 1 = [] ∧
    (∀ x : Nat, x ≠ 1 →
      wateringsOf (deletePlant cdbC8 1 1).1 x = wateringsOf cdbC8 x ∧
      repottingsOf (deletePlant cdbC8 1 1).1 x = repottingsOf cdbC8 x) ∧
    (∀ uid2 : Nat, fetchOwned (deletePlant cdbC8 1 1).1 1 uid2 = none ∧
      getHistory (deletePlant cdbC8 1 1).1 uid2 1 = .error .notFound) :=
  delete_cascade cdbC8 1 1
    ⟨1, "Fern", none, none, some 7, some 365, none, some 10, none, some 1⟩
    (by decide)

/-! ## Claim C4 -/

instance : IsTotal CareEvent evDesc := ⟨fun a b => le_total b.«at» a.«at»⟩

instance : IsTrans CareEvent evDesc :=
  ⟨fun _ _ _ hab hbc => le_trans hbc hab⟩

instance : IsTotal HEntry hDesc := ⟨fun a b => le_total b.«at» a.«at»⟩

instance : IsTrans HEntry hDesc :=
  ⟨fun _ _ _ hab hbc => le_trans hbc hab⟩

theorem filter_at_orderedInsert_ev (a : CareEvent) (s : List CareEvent) (t : Int) :
    (List.orderedInsert evDesc a s).filter (fun e => e.«at» == t) =
      if a.«at» == t then a :: s.filter (fun e => e.«at» == t)
      else s.filter (fun e => e.«at» == t) := by
  induction s with
  | nil =>
    by_cases hat : (a.«at» == t) = true <;> simp [List.orderedInsert, hat]
  | cons b s ih =>
    simp only [List.orderedInsert]
    by_cases hab : evDesc a b
    · rw [if_pos hab]
      simp only [List.filter_cons]
    · rw [if_neg hab]
      simp only [List.filter_cons, ih]
      by_cases hat : (a.«at» == t) = true
      · have hbt : (b.«at» == t) = false := by
          refine beq_eq_false_iff_ne.2 (fun hb => hab ?_)
          have ha : a.«at» = t := by simpa using hat
          show b.«at» ≤ a.«at»
          rw [hb, ha]
        simp [hat, hbt]
      · have hat2 : (a.«at» == t) = false := eq_false_of_ne_true hat
        by_cases hbt : (b.«at» == t) = true <;> simp [hat2, hbt]

theorem filter_at_insertionSort_ev (s : List CareEvent) (t : Int) :
    (List.insertionSort evDesc s).filter (fun e => e.«at» == t) =
      s.filter (fun e => e.«at» == t) := by
  induction s with
  | nil => rfl
  | cons a s ih =>
    simp only [List.insertionSort, filter_at_orderedInsert_ev, ih, List.filter_cons]

theorem filter_at_orderedInsert_h (a : HEntry) (s : List HEntry) (t : Int) :
    (List.orderedInsert hDesc a s).filter (fun x => x.«at» == t) =
      if a.«at» == t then a :: s.filter (fun x => x.«at» == t)
      else s.filter (fun x => x.«at» == t) := by
  induction s with
  | nil =>
    by_cases hat : (a.«at» == t) = true <;> simp [List.orderedInsert, hat]
  | cons b s ih =>
    simp only [List.orderedInsert]
    by_cases hab : hDesc a b
    · rw [if_pos hab]
      simp only [List.filter_cons]
    · rw [if_neg hab]
      simp only [List.filter_cons, ih]
      by_cases hat : (a.«at» == t) = true
      · have hbt : (b.«at» == t) = false := by
          refine beq_eq_false_iff_ne.2 (fun hb => hab ?_)
          have ha : a.«at» = t := by simpa using hat
          show b.«at» ≤ a.«at»
          rw [hb, ha]
        simp [hat, hbt]
      · have hat2 : (a.«at» == t) = false := eq_false_of_ne_true hat
        by_cases hbt : (b.«at» == t) = true <;> simp [hat2, hbt]

theorem filter_at_insertionSort_h (s : List HEntry) (t : Int) :
    (List.insertionSort hDesc s).filter (fun x => x.«at» == t) =
      s.filter (fun x => x.«at» == t) := by
  induction s with
  | nil => rfl
  | cons a s ih =>
    simp only [List.insertionSort, filter_at_orderedInsert_h, ih, List.filter_cons]

/-- Concrete database where a repotting is inserted before a watering with
the same timestamp. -/
def cdbC4 : DB :=
  { plants := [⟨1, "Fern", none, none, some 7, some 365, none, some 5, some 5, some 1⟩]
    waterings := [⟨2, 1, 5, some 1⟩]
    repottings := [⟨1, 1, 5, some 1⟩]
    nextPlantId := 2
    nextEventId := 3 }

/-- C4 counterexample: at equal timestamps the handler puts the watering
before the repotting even though the repotting was inserted first, so the
output differs from the stable-by-insertion-sequence ordering the claim
asserts. -/
theorem history_tie_not_insertion_cex :
    getHistory cdbC4 1 1 = .ok [⟨"watered", 5⟩, ⟨"repotted", 5⟩] ∧
    historySpecInsertion cdbC4 1 = [⟨"repotted", 5⟩, ⟨"watered", 5⟩] ∧
    getHistory cdbC4 1 1 ≠ .ok (historySpecInsertion cdbC4 1) :=
  ⟨by decide, by decide, by decide⟩

/-- C4 (amended): history of an accessible record returns all its events of
both kinds ordered by timestamp descending; at equal timestamps the watering
entries come before the repotting entries (each kind internally in its
stored order), rather than in global insertion sequence. -/
theorem history_sorted_desc_ties_by_kind (db : DB) (uid pid : Nat)
    (l : List HEntry) (h : getHistory db uid pid = .ok l) :
    l.Sorted hDesc ∧
    l.Perm ((wateringsOf db pid).map (fun e => HEntry.mk "watered" e.«at») ++
      (repottingsOf db pid).map (fun e => HEntry.mk "repotted" e.«at»)) ∧
    (∀ t : Int, l.filter (fun x => x.«at» == t) =
      ((wateringsOf db pid).filter (fun e => e.«at» == t)).map
        (fun e => HEntry.mk "watered" e.«at») ++
      ((repottingsOf db pid).filter (fun e => e.«at» == t)).map
        (fun e => HEntry.mk "repotted" e.«at»)) := by
  cases hf : fetchOwned db pid uid with
  | none => simp [getHistory, hf] at h
  | some p =>
    simp only [getHistory, hf] at h
    have hl : l = List.insertionSort hDesc
        ((List.insertionSort evDesc (wateringsOf db pid)).map
          (fun e => HEntry.mk "watered" e.«at») ++
        (List.insertionSort evDesc (repottingsOf db pid)).map
          (fun e => HEntry.mk "repotted" e.«at»)) := (Except.ok.inj h).symm
    subst hl
    refine ⟨List.sorted_insertionSort hDesc _, ?_, ?_⟩
    · refine (List.perm_insertionSort hDesc _).trans ?_
      exact List.Perm.append
        ((List.perm_insertionSort evDesc _).map _)
        ((List.perm_insertionSort evDesc _).map _)
    · intro t
      rw [filter_at_insertionSort_h, List.filter_append]
      congr 1
      · rw [List.filter_map]
        exact congrArg (List.map (fun e => HEntry.mk "watered" e.«at»))
          (filter_at_insertionSort_ev (wateringsOf db pid) t)
      · rw [List.filter_map]
        exact congrArg (List.map (fun e => HEntry.mk "repotted" e.«at»))
          (filter_at_insertionSort_ev (repottingsOf db pid) t)

/-- Witness for the amended C4 on the concrete tie database. -/
theorem history_sorted_desc_ties_by_kind_witness :
    ([⟨"watered", 5⟩, ⟨"repotted", 5⟩] : List HEntry).Sorted hDesc ∧
    ([⟨"watered", 5⟩, ⟨"repotted", 5⟩] : List HEntry).Perm
      ((wateringsOf cdbC4 1).map (fun e => HEntry.mk "watered" e.«at») ++
        (repottingsOf cdbC4 1).map (fun e => HEntry.mk "repotted" e.«at»)) ∧
    (∀ t : Int, ([⟨"watered", 5⟩, ⟨"repotted", 5⟩] : List HEntry).filter
        (fun x => x.«at» == t) =
      ((wateringsOf cdbC4 1).filter (fun e => e.«at» == t)).map
        (fun e => HEntry.mk "watered" e.«at») ++
      ((repottingsOf cdbC4 1).filter (fun e => e.«at» == t)).map
        (fun e => HEntry.mk "repotted" e.«at»)) :=
  history_sorted_desc_ties_by_kind cdbC4 1 1 _ (by decide)

/-! ## Claim C3 -/

/-- Concrete store with one user and one session created at time 0. -/
def cdbC3 : DB :=
  { users := [⟨1, "a@x.test", "h"⟩]
    sessions := [⟨"tok", 1, 0⟩] }

/-- C3 counterexample: at wall-clock time `sessionTTLms + 1` the session
created at time 0 is past the fixed TTL, yet resolution still succeeds —
`getSession` never consults the session's age, so expiry is not enforced
server-side. -/
theorem getSession_ignores_expiry_cex :
    sessionTTLms < (2592000001 : Int) - 0 ∧
    cdbC3.sessions.map (fun s => s.created_at) = [0] ∧
    (getSession cdbC3 (some "tok")).2 = some ⟨"tok", 1, "a@x.test"⟩ ∧
    (getSession cdbC3 (some "tok")).2 ≠ none :=
  ⟨by decide, by decide, by decide, by decide⟩

/-- C3 (amended): session resolution returns None exactly when the cookie is
absent or empty, the token is not in the store, or the session's user row is
missing; a stored token resolves regardless of the session's age (the TTL
only bounds the cookie's client-side `maxAge`), and resolution runs no write
— in particular it never extends the session's lifetime. -/
theorem getSession_fixed_lookup :
    (∀ (db : DB) (c : Option String), (getSession db c).1 = db) ∧
    (∀ db : DB, (getSession db none).2 = none) ∧
    (∀ db : DB, (getSession db (some "")).2 = none) ∧
    (∀ (db : DB) (s : String), s ≠ "" →
      (∀ sess ∈ db.sessions, sess.id ≠ s) → (getSession db (some s)).2 = none) ∧
    (∀ (db : DB) (s : String) (sess : Session) (u : User), s ≠ "" →
      db.sessions.find? (fun x => x.id == s) = some sess →
      db.users.find? (fun x => x.id == sess.user_id) = some u →
      (getSession db (some s)).2 = some ⟨sess.id, u.id, u.email⟩) := by
  refine ⟨?_, ?_, ?_, ?_, ?_⟩
  · intro db c
    cases c with
    | none => rfl
    | some sid =>
      by_cases h : sid = ""
      · simp [getSession, h]
      · cases hfind : db.sessions.find? (fun s => s.id == sid) with
        | none => simp [getSession, h, hfind]
        | some s =>
          cases hfu : db.users.find? (fun u => u.id == s.user_id) with
          | none => simp [getSession, h, hfind, hfu]
          | some u => simp [getSession, h, hfind, hfu]
  · intro db
    rfl
  · intro db
    rfl
  · intro db s hs habs
    have hfind : db.sessions.find? (fun x => x.id == s) = none := by
      apply List.find?_eq_none.2
      intro x hx hpred
      exact habs x hx (by simpa using hpred)
    simp [getSession, hs, hfind]
  · intro db s sess u hs hfind hfu
    simp [getSession, hs, hfind, hfu]

/-- Witness for the amended C3 at a concrete store. -/
theorem getSession_fixed_lookup_witness :
    (getSession cdbC3 (some "tok")).1 = cdbC3 ∧
    (getSession cdbC3 none).2 = none ∧
    (getSession cdbC3 (some "nope")).2 = none ∧
    (getSession cdbC3 (some "tok")).2 = some ⟨"tok", 1, "a@x.test"⟩ :=
  ⟨getSession_fixed_lookup.1 cdbC3 (some "tok"),
   getSession_fixed_lookup.2.1 cdbC3,
   getSession_fixed_lookup.2.2.2.1 cdbC3 "nope" (by decide) (by decide),
   getSession_fixed_lookup.2.2.2.2 cdbC3 "tok" ⟨"tok", 1, 0⟩ ⟨1, "a@x.test", "h"⟩
     (by decide) (by decide) (by decide)⟩

/-! ## Claim C6 -/

/-- Concrete store with a single registered user. -/
def cdbC6 : DB := { users := [⟨1, "a@x.test", "HASH"⟩] }

/-- Model of `bcrypt.compare` against the stored hash of `"pw"`. -/
def bcC6 : String → String → Bool := fun p h => p == "pw" && h == "HASH"

/-- C6 counterexample: an unknown handle and a known handle with a wrong
secret produce the identical `invalid credentials` error, but the unknown
handle returns after zero `bcrypt.compare` invocations while the mismatch
performs one — the slow hash comparison is skipped, so the two failure
causes are distinguishable by timing. -/
theorem login_timing_distinguishable_cex :
    (login cdbC6 bcC6 "t" 0 (some "b@x.test") (some "pw")).resp =
      .error "invalid credentials" ∧
    (login cdbC6 bcC6 "t" 0 (some "a@x.test") (some "wrong")).resp =
      .error "invalid credentials" ∧
    (login cdbC6 bcC6 "t" 0 (some "b@x.test") (some "pw")).bcryptCalls = 0 ∧
    (login cdbC6 bcC6 "t" 0 (some "a@x.test") (some "wrong")).bcryptCalls = 1 ∧
    (0 : Nat) ≠ 1 :=
  ⟨by decide, by decide, by decide, by decide, by decide⟩

/-- C6 (amended): both failure causes return the very same
`invalid credentials` error and leave the store unchanged, but they are not
timing-indistinguishable: an unknown handle fails before any hash
comparison (zero `bcrypt.compare` calls) whereas a known handle with a
mismatched secret performs exactly one. -/
theorem login_same_error_different_cost (db : DB) (bc : String → String → Bool)
    (tok : String) (now : Int) (email pw : Option String) :
    (db.users.find? (fun u => u.email == email.getD "") = none →
      login db bc tok now email pw = ⟨db, .error "invalid credentials", 0⟩) ∧
    (∀ u : User, db.users.find? (fun x => x.email == email.getD "") = some u →
      bc (pw.getD "") u.password_hash = false →
      login db bc tok now email pw = ⟨db, .error "invalid credentials", 1⟩) := by
  constructor
  · intro h
    simp [login, h]
  · intro u hu hbc
    simp [login, hu, hbc]

/-- Witness for the amended C6: the two failure modes at a concrete store. -/
theorem login_same_error_different_cost_witness :
    login cdbC6 bcC6 "t" 0 (some "b@x.test") (some "pw") =
      ⟨cdbC6, .error "invalid credentials", 0⟩ ∧
    login cdbC6 bcC6 "t" 0 (some "a@x.test") (some "wrong") =
      ⟨cdbC6, .error "invalid credentials", 1⟩ :=
  ⟨(login_same_error_different_cost cdbC6 bcC6 "t" 0 (some "b@x.test")
      (some "pw")).1 (by decide),
   (login_same_error_different_cost cdbC6 bcC6 "t" 0 (some "a@x.test")
      (some "wrong")).2 ⟨1, "a@x.test", "HASH"⟩ (by decide) (by decide)⟩

/-! ## Claim C5 -/

/-- Create request with a valid name and a non-numeric watering interval. -/
def cbodyC5 : CreateBody := { name := some "Fern", water_interval_days := .str "abc" }

/-- C5 counterexample: the non-numeric interval `"abc"` is not rejected —
the create succeeds — and the handler computes `Number("abc" || 7) = NaN`,
which the SQLite bind persists as `NULL`: the watering interval is stored
corrupted (neither the supplied value nor a number), so the claim that
non-numeric input is "rejected or coerced to a number, never stored as a
corrupted value" fails. -/
theorem create_nonnumeric_interval_cex :
    (createPlant {} 1 cbodyC5).2 = .ok 1 ∧
    jsToNumber (jsOr (.str "abc") (.num 7)) = JsNum.nan ∧
    (createPlant {} 1 cbodyC5).1.plants.map (fun p => p.water_interval_days) =
      [none] :=
  ⟨by decide, by decide, by decide⟩

/-- C5 (amended): createRecord fails with ValidationError exactly when the
display name is absent or empty; on success the record is appended with
intervals obtained by the deterministic JavaScript coercion
`Number(value || default)` bound through SQLite — in particular omitted
intervals are stored as the defaults 7 and 365, while a truthy non-numeric
string coerces to `NaN` and is stored as `NULL` rather than rejected. -/
theorem create_validation_defaults_coercion (db : DB) (uid : Nat) (b : CreateBody) :
    ((createPlant db uid b).2 = .error .validation ↔
      (b.name = none ∨ b.name = some "")) ∧
    (¬(b.name = none ∨ b.name = some "") →
      ∃ p : Plant, (createPlant db uid b).1.plants = db.plants ++ [p] ∧
        (createPlant db uid b).2 = .ok p.id ∧
        p.water_interval_days = sqlBindNum (jsToNumber (jsOr b.water_interval_days (.num 7))) ∧
        p.repot_interval_days = sqlBindNum (jsToNumber (jsOr b.repot_interval_days (.num 365))) ∧
        (b.water_interval_days = .undef → p.water_interval_days = some 7) ∧
        (b.repot_interval_days = .undef → p.repot_interval_days = some 365)) := by
  constructor
  · by_cases hb : b.name = none ∨ b.name = some "" <;> simp [createPlant, hb]
  · intro hb
    simp only [createPlant, if_neg hb]
    refine ⟨_, rfl, rfl, rfl, rfl, ?_, ?_⟩
    · intro h
      simp [jsOr, jsTruthy, jsToNumber, sqlBindNum, h]
    · intro h
      simp [jsOr, jsTruthy, jsToNumber, sqlBindNum, h]

/-- Witness for the amended C5: creating `{name: "Fern"}` with omitted
intervals. -/
theorem create_validation_defaults_coercion_witness :
    ∃ p : Plant,
      (createPlant {} 1 { name := some "Fern" }).1.plants = ({} : DB).plants ++ [p] ∧
      (createPlant {} 1 { name := some "Fern" }).2 = .ok p.id ∧
      p.water_interval_days = sqlBindNum (jsToNumber (jsOr JsVal.undef (.num 7))) ∧
      p.repot_interval_days = sqlBindNum (jsToNumber (jsOr JsVal.undef (.num 365))) ∧
      (JsVal.undef = JsVal.undef → p.water_interval_days = some 7) ∧
      (JsVal.undef = JsVal.undef → p.repot_interval_days = some 365) :=
  (create_validation_defaults_coercion {} 1 { name := some "Fern" }).2 (by decide)

/-! ## Claim C10 -/

/-- C10: supplying any falsy interval value (0, the empty string, `null`,
`false`) makes `Number(value || default)` take the default, so the create
result is exactly the same as omitting the fields. -/
theorem create_falsy_interval_defaults (db : DB) (uid : Nat) (b : CreateBody)
    (v w : JsVal) (hv : jsTruthy v = false) (hw : jsTruthy w = false) :
    createPlant db uid { b with water_interval_days := v, repot_interval_days := w } =
      createPlant db uid
        { b with water_interval_days := .undef, repot_interval_days := .undef } := by
  have h0 : jsTruthy JsVal.undef = false := rfl
  simp [createPlant, jsOr, hv, hw, h0]

/-- Witness for C10: water interval 0 and repot interval `""` store the
defaults 7 and 365, indistinguishable from omitting both. -/
theorem create_falsy_interval_defaults_witness :
    createPlant {} 1
        { name := some "Fern", water_interval_days := .num 0,
          repot_interval_days := .str "" } =
      createPlant {} 1
        { name := some "Fern", water_interval_days := .undef,
          repot_interval_days := .undef } :=
  create_falsy_interval_defaults {} 1 { name := some "Fern" } (.num 0) (.str "")
    (by decide) (by decide)

/-! ## Claim C9 -/

/-- Concrete database with one accessible plant. -/
def cdbC9 : DB :=
  { plants := [⟨1, "Fern", none, none, some 7, some 365, none, none, none, some 1⟩] }

/-- C9: the `YYYY-MM-DD` branch of `normalizeDate` calls `toISOString()`
without an Invalid Date guard, so a string matching the regex whose fields
are out of range ("2024-99-99") throws a RangeError and the append fails
with an internal error instead of falling back to the current time; the
absent and non-regex malformed inputs do degrade to now, and a valid
calendar date resolves to its (timezone-adjusted) start of day. -/
theorem normalizeDate_ymd_range_throws :
    normalizeDate (fun _ => none) 0 777 (some "2024-99-99") =
      .error "RangeError: Invalid time value" ∧
    normalizeDate (fun _ => none) 0 777 none = .ok 777 ∧
    normalizeDate (fun _ => none) 0 777 (some "garbage") = .ok 777 ∧
    normalizeDate (fun _ => none) 0 777 (some "2024-01-10") = .ok 1704844800000 ∧
    waterRoute (fun _ => none) 0 777 cdbC9 1 1 (some "2024-99-99") =
      (cdbC9, .error .internal) :=
  ⟨by decide, by decide, by decide, by decide, by decide⟩

end PlantKeeper
